import Mathlib

set_option maxRecDepth 8000

/-!
Shallow embedding of the spsdaily curation pipeline.

Source files embedded:
  * scripts/telegram_curator.py     (curator v1: suffix _v1)
  * scripts/telegram_curator_v2.py  (curator v2: suffix _v2)
  * scripts/feed_collector.py       (collector: clean_html, truncate_teaser,
    per-entry normalization of fetch_feed, mark_article_seen,
    and the archive helpers)

Modelling conventions:
  * Python dicts that map category names to article lists become ordered
    association lists (`dictGet?` / `dictSet`), matching dict insertion-order
    and in-place update semantics.
  * A Python article dict becomes the `Article` record, holding exactly the
    keys the curation logic reads or writes.  Python `in`-membership on a
    list of dicts (curator v1) becomes decidable equality on `Article`.
  * The sqlite tables become lists of row records in id order; `INSERT OR
    REPLACE` on a `url UNIQUE` column deletes the conflicting row and appends
    a row with a fresh (larger) autoincrement id, so it is modelled as
    filter-out-then-append; `INSERT OR IGNORE` is a guarded append.
  * `date.today().isoformat()` is injected as an explicit `today : String`
    argument; ISO dates compare correctly under lexicographic string order.
  * File I/O (`json.load`/`json.dump`) becomes explicit state passing: the
    state a handler would read from disk is its input, the state it would
    write is its output.  `git_push` only appends a suffix to the human
    message of mutating results and is dropped.
  * A raised Python exception (e.g. IndexError) is `Option.none`.
  * `callback_data` always has the shape "action:category:index" in this
    system; the `split(":")` / `int(...)` parse is done by the caller, so
    `handle_callback` takes the parsed triple.
-/

/-- One article dict as produced by scripts/feed_collector.py and consumed by the
curators.  `word_count` models `article.get('word_count', 0)` (missing key = 0);
`approvedDate` models the optional `approvedDate` key (`none` = key absent). -/
structure Article where
  headline : String
  teaser : String
  source : String
  url : String
  word_count : Nat
  approvedDate : Option String
deriving DecidableEq, Repr

/-- The articles.json dict: the `lastUpdated` key (missing key modelled as ""),
the `editorsPick` key (`none` models both a missing key and a falsy
`None`/empty value), and the per-category article lists. -/
structure LiveState where
  lastUpdated : String
  editorsPick : Option Article
  cats : List (String × List Article)
deriving DecidableEq, Repr

/-- Row of the sqlite `archive` table as created by telegram_curator.py
(v1 has no word_count column).  List position models id order. -/
structure ArchiveRowV1 where
  url : String
  headline : String
  teaser : String
  source : String
  category : String
  approved_date : String
deriving DecidableEq, Repr

/-- Row of the sqlite `archive` table as created by telegram_curator_v2.py
(v2 adds the word_count column).  List position models id order. -/
structure ArchiveRowV2 where
  url : String
  headline : String
  teaser : String
  source : String
  category : String
  word_count : Nat
  approved_date : String
deriving DecidableEq, Repr

/-- Persistent curator v1 state: articles.json plus the archive table. -/
structure StateV1 where
  live : LiveState
  archive : List ArchiveRowV1
deriving DecidableEq, Repr

/-- Persistent curator v2 state: articles.json plus the archive table. -/
structure StateV2 where
  live : LiveState
  archive : List ArchiveRowV2
deriving DecidableEq, Repr

/-- Python dict lookup `d.get(k)` / `k in d` on an ordered association list. -/
def dictGet? {α : Type} : List (String × α) → String → Option α
  | [], _ => none
  | (k', v') :: rest, k => if k' = k then some v' else dictGet? rest k

/-- Python dict assignment `d[k] = v`: update the existing binding in place,
otherwise append a new binding (dict insertion order). -/
def dictSet {α : Type} : List (String × α) → String → α → List (String × α)
  | [], k, v => [(k, v)]
  | (k', v') :: rest, k, v =>
      if k' = k then (k, v) :: rest else (k', v') :: dictSet rest k v

/-- Python list indexing `l[i]` with an `int` index: non-negative indices from
the front, negative indices from the back; `none` models the IndexError. -/
def pyIndex {α : Type} (l : List α) (i : Int) : Option α :=
  if 0 ≤ i then l.get? i.toNat
  else if -i ≤ (l.length : Int) then l.get? (l.length - (-i).toNat) else none

/-- Python string slice `s[:n]`. -/
def pySlice (s : String) (n : Nat) : String :=
  String.mk (s.data.take n)

/-- telegram_curator.py, add_to_archive: `INSERT OR REPLACE INTO archive (url,
headline, teaser, source, category, approved_date) VALUES (...)` with
`url TEXT UNIQUE`: any row with the same url is deleted and the fresh row is
appended with a new autoincrement id. -/
def add_to_archive_v1 (ar : List ArchiveRowV1) (a : Article) (category today : String) :
    List ArchiveRowV1 :=
  ar.filter (fun r => r.url ≠ a.url) ++
    [{ url := a.url, headline := a.headline, teaser := a.teaser,
       source := a.source, category := category, approved_date := today }]

/-- telegram_curator_v2.py, add_to_archive: same `INSERT OR REPLACE`, with the
word_count column (`article.get('word_count', 0)`). -/
def add_to_archive_v2 (ar : List ArchiveRowV2) (a : Article) (category today : String) :
    List ArchiveRowV2 :=
  ar.filter (fun r => r.url ≠ a.url) ++
    [{ url := a.url, headline := a.headline, teaser := a.teaser,
       source := a.source, category := category, word_count := a.word_count,
       approved_date := today }]

/-- Curator v1 approve branch: `live_articles[category].insert(0, article)`,
then `if len(...) > 15: live_articles[category] = live_articles[category][:15]`. -/
def capInsert (a : Article) (l : List Article) : List Article :=
  let inserted := a :: l
  if 15 < inserted.length then inserted.take 15 else inserted

/-- Result text helper: Python f-string `f"...: {headline[:n]}..."`. -/
def headlineSnip (s : String) (n : Nat) : String :=
  pySlice s n ++ "..."

/-- telegram_curator.py, handle_callback, approve branch (lines 249-276):
dict-equality membership check against the live category list, front insert
capped at 15, `INSERT OR REPLACE` archive append, and the stale-pick
auto-promotion (`current_pick_fresh`). -/
def approve_v1 (today : String) (st : StateV1) (category : String) (a : Article) :
    StateV1 × String :=
  let lst0 := (dictGet? st.live.cats category).getD []
  if a ∈ lst0 then (st, "Already live")
  else
    let capped := capInsert a lst0
    let live1 : LiveState := { st.live with cats := dictSet st.live.cats category capped }
    let archive1 := add_to_archive_v1 st.archive a category today
    if st.live.lastUpdated = today ∧ st.live.editorsPick.isSome = true then
      ({ live := live1, archive := archive1 }, "✅ LIVE: " ++ headlineSnip a.headline 40)
    else
      ({ live := { live1 with editorsPick := some a, lastUpdated := today },
         archive := archive1 },
       "✅⭐ LIVE + PICK: " ++ headlineSnip a.headline 40)

/-- telegram_curator.py, handle_callback, reject branch: when the category key
exists, filter the live list by url; no archive effect; same result text
whether or not anything was live. -/
def reject_v1 (st : StateV1) (category : String) (a : Article) : StateV1 × String :=
  match dictGet? st.live.cats category with
  | some lst0 =>
      ({ st with
         live := { st.live with
                   cats := dictSet st.live.cats category
                     (lst0.filter (fun x => x.url ≠ a.url)) } },
       "❌ Removed: " ++ headlineSnip a.headline 40)
  | none => (st, "❌ Removed: " ++ headlineSnip a.headline 40)

/-- telegram_curator.py, handle_callback, pick branch (lines 287-303): set the
editor's pick, insert into the category list if not there (capped at 15),
always `INSERT OR REPLACE` into the archive.  Note: this branch does not touch
`lastUpdated`. -/
def pick_v1 (today : String) (st : StateV1) (category : String) (a : Article) :
    StateV1 × String :=
  let lst0 := (dictGet? st.live.cats category).getD []
  let lst1 := if a ∈ lst0 then lst0 else capInsert a lst0
  ({ live := { st.live with
               editorsPick := some a,
               cats := dictSet st.live.cats category lst1 },
     archive := add_to_archive_v1 st.archive a category today },
   "⭐ PICK SET: " ++ headlineSnip a.headline 40)

/-- Action dispatch of telegram_curator.py handle_callback after the pending
article has been fetched. -/
def dispatch_v1 (today : String) (st : StateV1) (action category : String) (a : Article) :
    StateV1 × String :=
  if action = "approve" then approve_v1 today st category a
  else if action = "reject" then reject_v1 st category a
  else if action = "pick" then pick_v1 today st category a
  else (st, "Unknown action")

/-- telegram_curator.py, handle_callback (lines 233-314): guard
`if category not in pending or index >= len(pending[category])`, Python
indexing `pending[category][index]` (IndexError = `none`), then the action
branches.  The returned pending store is untouched (handle_callback never
writes pending_articles.json). -/
def handle_callback_v1 (today : String) (pending : List (String × List Article))
    (st : StateV1) (action category : String) (index : Int) :
    Option (StateV1 × String) :=
  match dictGet? pending category with
  | none => some (st, "Article not found")
  | some lst =>
      if (lst.length : Int) ≤ index then some (st, "Article not found")
      else
        match pyIndex lst index with
        | none => none
        | some a => some (dispatch_v1 today st action category a)

/-- Shorthand for v2's in-place mutation `article['approvedDate'] = today`. -/
def withDate (a : Article) (today : String) : Article :=
  { a with approvedDate := some today }

/-- telegram_curator_v2.py, handle_callback, approve branch (lines 304-329):
url-set membership check, `approvedDate` stamp, uncapped front insert, the
fresh-pick condition `lastUpdated != today or not editorsPick`, and the
`INSERT OR REPLACE` archive append.  There is no 15-item cap in v2. -/
def approve_v2 (today : String) (st : StateV2) (category : String) (a : Article) :
    StateV2 × String :=
  let lst0 := (dictGet? st.live.cats category).getD []
  if a.url ∈ lst0.map Article.url then (st, "Already live")
  else
    let a1 := withDate a today
    let lst1 := a1 :: lst0
    let archive1 := add_to_archive_v2 st.archive a1 category today
    if st.live.lastUpdated = today ∧ st.live.editorsPick.isSome = true then
      ({ live := { st.live with cats := dictSet st.live.cats category lst1 },
         archive := archive1 },
       "LIVE: " ++ headlineSnip a.headline 40)
    else
      ({ live := { lastUpdated := today, editorsPick := some a1,
                   cats := dictSet st.live.cats category lst1 },
         archive := archive1 },
       "LIVE + PICK: " ++ headlineSnip a.headline 35)

/-- telegram_curator_v2.py, handle_callback, reject branch: same logic as v1
with a plain result text. -/
def reject_v2 (st : StateV2) (category : String) (a : Article) : StateV2 × String :=
  match dictGet? st.live.cats category with
  | some lst0 =>
      ({ st with
         live := { st.live with
                   cats := dictSet st.live.cats category
                     (lst0.filter (fun x => x.url ≠ a.url)) } },
       "Removed: " ++ headlineSnip a.headline 40)
  | none => (st, "Removed: " ++ headlineSnip a.headline 40)

/-- telegram_curator_v2.py, handle_callback, pick branch (lines 342-359): if the
url is not live, stamp `approvedDate`, insert at the front (uncapped) and
archive; then unconditionally set the editor's pick (to the possibly mutated
article dict) and stamp `lastUpdated = today`. -/
def pick_v2 (today : String) (st : StateV2) (category : String) (a : Article) :
    StateV2 × String :=
  let lst0 := (dictGet? st.live.cats category).getD []
  if a.url ∈ lst0.map Article.url then
    ({ live := { lastUpdated := today, editorsPick := some a,
                 cats := dictSet st.live.cats category lst0 },
       archive := st.archive },
     "PICK: " ++ headlineSnip a.headline 40)
  else
    let a1 := withDate a today
    ({ live := { lastUpdated := today, editorsPick := some a1,
                 cats := dictSet st.live.cats category (a1 :: lst0) },
       archive := add_to_archive_v2 st.archive a1 category today },
     "PICK: " ++ headlineSnip a.headline 40)

/-- Action dispatch of telegram_curator_v2.py handle_callback after the pending
article has been fetched. -/
def dispatch_v2 (today : String) (st : StateV2) (action category : String) (a : Article) :
    StateV2 × String :=
  if action = "approve" then approve_v2 today st category a
  else if action = "reject" then reject_v2 st category a
  else if action = "pick" then pick_v2 today st category a
  else (st, "Unknown action")

/-- telegram_curator_v2.py, handle_callback (lines 284-371): identical guard and
indexing to v1, then the v2 action branches. -/
def handle_callback_v2 (today : String) (pending : List (String × List Article))
    (st : StateV2) (action category : String) (index : Int) :
    Option (StateV2 × String) :=
  match dictGet? pending category with
  | none => some (st, "Article not found")
  | some lst =>
      if (lst.length : Int) ≤ index then some (st, "Article not found")
      else
        match pyIndex lst index with
        | none => none
        | some a => some (dispatch_v2 today st action category a)

/-- telegram_curator_v2.py category list (v2 adds essays). -/
def CATEGORIES_V2 : List String :=
  ["science", "philosophy", "society", "books", "essays"]

/-- The per-article keep condition of cleanup_old_articles:
`not a.get('approvedDate') or a.get('approvedDate') >= cutoff`
(a missing key and the falsy empty string are both kept; ISO date strings
compare lexicographically, matching Python string `>=`). -/
def keepArticle (cutoff : String) (a : Article) : Bool :=
  match a.approvedDate with
  | none => true
  | some d => if d = "" then true else decide (cutoff ≤ d)

/-- One iteration of the cleanup loop body for one category name. -/
def cleanupStep (cutoff : String) (acc : List (String × List Article) × Nat)
    (category : String) : List (String × List Article) × Nat :=
  match dictGet? acc.1 category with
  | none => acc
  | some lst =>
      (dictSet acc.1 category (lst.filter (keepArticle cutoff)),
       acc.2 + (lst.length - (lst.filter (keepArticle cutoff)).length))

/-- telegram_curator_v2.py, cleanup_old_articles (lines 98-121): filter each
category list by `approvedDate >= cutoff` where
`cutoff = (date.today() - timedelta(days=7)).isoformat()` (injected here),
count removals, and rewrite articles.json only when `removed > 0`.  Returns
(new state, removed count, whether the file was rewritten).  The editor's
pick, `lastUpdated` and the archive are never touched. -/
def cleanup_old_articles (cutoff : String) (st : StateV2) : StateV2 × Nat × Bool :=
  let folded := CATEGORIES_V2.foldl (cleanupStep cutoff) (st.live.cats, 0)
  ({ st with live := { st.live with cats := folded.1 } },
   folded.2, decide (0 < folded.2))

/-- The Python regex \s character class, restricted to its ASCII members
(the feed text this pipeline handles). -/
def isPySpace (c : Char) : Bool :=
  c = ' ' ∨ c = '\t' ∨ c = '\n' ∨ c = '\r' ∨ c = '\x0b' ∨ c = '\x0c'

/-- feed_collector.py clean_html step 1: `re.sub(r'<[^>]+>', '', text)` -
leftmost-first removal of a '<', one or more non-'>' characters, and a '>'.
The recursion consumes at least one character per step, so running it with
fuel = length of the input (see `stripTags`) never exhausts the fuel; the
fuel only makes the definition structurally recursive, hence
kernel-computable. -/
def stripTagsFuel : Nat → List Char → List Char
  | 0, l => l
  | _ + 1, [] => []
  | fuel + 1, c :: cs =>
      if c = '<' then
        let inside := cs.takeWhile (fun x => x ≠ '>')
        if inside.length ≠ 0 ∧ inside.length < cs.length then
          stripTagsFuel fuel (cs.drop (inside.length + 1))
        else c :: stripTagsFuel fuel cs
      else c :: stripTagsFuel fuel cs

/-- Tag stripping at full fuel. -/
def stripTags (l : List Char) : List Char := stripTagsFuel l.length l

/-- feed_collector.py clean_html step 3a: `re.sub(r'\s+', ' ', text)` -
collapse each maximal whitespace run to a single space; `prevSpace` records
whether the scan is currently inside a whitespace run. -/
def collapseWsAux (prevSpace : Bool) : List Char → List Char
  | [] => []
  | c :: cs =>
      if isPySpace c then
        if prevSpace then collapseWsAux true cs else ' ' :: collapseWsAux true cs
      else c :: collapseWsAux false cs

/-- Whitespace collapsing from outside any run. -/
def collapseWs (l : List Char) : List Char := collapseWsAux false l

/-- Python str.strip(): drop leading and trailing whitespace. -/
def pyStrip (l : List Char) : List Char :=
  ((l.dropWhile isPySpace).reverse.dropWhile isPySpace).reverse

/-- feed_collector.py, clean_html (lines 316-323).  `html.unescape` is a Python
standard-library collaborator and is passed in as an opaque function
`unescape`; the tag-strip, entity-unescape, whitespace-collapse, strip order
follows the source. -/
def clean_html (unescape : String → String) (text : String) : String :=
  if text = "" then ""
  else String.mk (pyStrip (collapseWs (unescape (String.mk (stripTags text.data))).data))

/-- Python `l.rsplit(' ', 1)[0]` on a character list: everything before the
last space when a space exists. -/
def beforeLastSpace : List Char → Option (List Char)
  | [] => none
  | c :: cs =>
      match beforeLastSpace cs with
      | some r => some (c :: r)
      | none => if c = ' ' then some [] else none

/-- feed_collector.py, truncate_teaser (lines 325-331): clean, return unchanged
when within `max_len`, else `text[:max_len].rsplit(' ', 1)[0] + "..."`. -/
def truncate_teaser (unescape : String → String) (text : String)
    (max_len : Nat := 200) : String :=
  let t := clean_html unescape text
  if t.length ≤ max_len then t
  else String.mk (((beforeLastSpace (t.data.take max_len)).getD (t.data.take max_len))
    ++ ['.', '.', '.'])

/-- One raw feedparser entry as read by fetch_feed: each field models
`entry.get(key, default)` (`none` = key absent).  The parsed
published/updated timestamp handling (lines 341-350) happens before the
portion embedded here. -/
structure RawEntry where
  title : Option String
  summary : Option String
  description : Option String
  link : Option String
deriving DecidableEq, Repr

/-- A candidate article as appended by fetch_feed. -/
structure Candidate where
  headline : String
  teaser : String
  source : String
  url : String
  published : Option String
deriving DecidableEq, Repr

/-- feed_collector.py, fetch_feed per-entry normalization (lines 352-366), the
part after the age-cutoff skip: extract headline/teaser/link and append a
candidate only under `if headline and link:`; a skipped entry is silently
dropped (`none`), never an error. -/
def normalizeEntry (unescape : String → String) (name : String)
    (published : Option String) (e : RawEntry) : Option Candidate :=
  let headline := clean_html unescape (e.title.getD "")
  let teaser := truncate_teaser unescape (e.summary.getD (e.description.getD ""))
  let link := e.link.getD ""
  if headline ≠ "" ∧ link ≠ "" then
    some { headline := headline, teaser := teaser, source := name,
           url := link, published := published }
  else none

/-- Row of the sqlite seen_articles table (feed_collector.py init_db, lines
32-45): `url TEXT PRIMARY KEY`; the status/first_seen/reviewed columns take
sqlite defaults and are not read by the gating logic. -/
structure SeenRow where
  url : String
  headline : String
  category : String
deriving DecidableEq, Repr

/-- feed_collector.py, mark_article_seen (lines 67-73): `INSERT OR IGNORE INTO
seen_articles (url, headline, category)` - a conflict on the url primary key
leaves the table unchanged. -/
def mark_article_seen (db : List SeenRow) (url headline category : String) :
    List SeenRow :=
  if db.any (fun r => r.url = url) then db
  else db ++ [{ url := url, headline := headline, category := category }]

/-- feed_collector.py, is_article_seen (lines 62-65). -/
def is_article_seen (db : List SeenRow) (url : String) : Bool :=
  db.any (fun r => r.url = url)

/-! ### Helper lemmas about the dict and list operations -/

theorem dictGet?_dictSet_self {α : Type} (d : List (String × α)) (k : String) (v : α) :
    dictGet? (dictSet d k v) k = some v := by
  induction d with
  | nil => simp [dictGet?, dictSet]
  | cons p rest ih =>
      by_cases h : p.1 = k
      · simp [dictSet, dictGet?, h]
      · simp [dictSet, dictGet?, h, ih]

theorem dictGet?_dictSet_ne {α : Type} (d : List (String × α)) (k k' : String) (v : α)
    (h : k ≠ k') : dictGet? (dictSet d k v) k' = dictGet? d k' := by
  induction d with
  | nil => simp [dictGet?, dictSet, h]
  | cons p rest ih =>
      by_cases hp : p.1 = k
      · simp [dictSet, dictGet?, hp, h]
      · simp only [dictSet, hp, if_false]
        by_cases hp' : p.1 = k'
        · simp [dictGet?, hp']
        · simp [dictGet?, hp', ih]

theorem mem_dictSet {α : Type} (d : List (String × α)) (k : String) (v : α)
    (p : String × α) (hp : p ∈ dictSet d k v) : p = (k, v) ∨ p ∈ d := by
  induction d with
  | nil => simpa [dictSet] using hp
  | cons q rest ih =>
      by_cases hq : q.1 = k
      · simp only [dictSet, hq, if_true, List.mem_cons] at hp
        rcases hp with hp | hp
        · exact Or.inl hp
        · exact Or.inr (List.mem_cons_of_mem _ hp)
      · simp only [dictSet, hq, if_false, List.mem_cons] at hp
        rcases hp with hp | hp
        · exact Or.inr (by simp [hp])
        · rcases ih hp with h | h
          · exact Or.inl h
          · exact Or.inr (List.mem_cons_of_mem _ h)

theorem dictSet_self {α : Type} (d : List (String × α)) (k : String) (v : α)
    (h : dictGet? d k = some v) : dictSet d k v = d := by
  induction d with
  | nil => simp [dictGet?] at h
  | cons q rest ih =>
      obtain ⟨qk, qv⟩ := q
      by_cases hq : qk = k
      · subst hq
        have h2 : qv = v := by simpa [dictGet?] using h
        simp [dictSet, h2]
      · simp only [dictGet?, hq, if_false] at h
        simp [dictSet, hq, ih h]

theorem capInsert_length_le (a : Article) (l : List Article) :
    (capInsert a l).length ≤ 15 := by
  simp only [capInsert]
  split
  · simp [List.length_take]
  · omega

theorem mem_capInsert_self (a : Article) (l : List Article) : a ∈ capInsert a l := by
  simp only [capInsert]
  split
  · rw [show (15 : Nat) = 14 + 1 from rfl, List.take_succ_cons]
    exact List.mem_cons_self a _
  · exact List.mem_cons_self a l

/-- Reduce handle_callback_v1 at a valid non-negative index to its dispatch. -/
theorem handle_callback_v1_valid (today : String) (pending : List (String × List Article))
    (st : StateV1) (action category : String) (lst : List Article)
    (hp : dictGet? pending category = some lst) (i : Nat) (hi : i < lst.length) :
    handle_callback_v1 today pending st action category (i : Int) =
      some (dispatch_v1 today st action category (lst.get ⟨i, hi⟩)) := by
  simp only [handle_callback_v1, hp]
  rw [if_neg (by exact_mod_cast Nat.not_le.mpr hi)]
  simp [pyIndex, Int.toNat_natCast, List.getElem?_eq_getElem hi, List.get_eq_getElem]

/-- Reduce handle_callback_v2 at a valid non-negative index to its dispatch. -/
theorem handle_callback_v2_valid (today : String) (pending : List (String × List Article))
    (st : StateV2) (action category : String) (lst : List Article)
    (hp : dictGet? pending category = some lst) (i : Nat) (hi : i < lst.length) :
    handle_callback_v2 today pending st action category (i : Int) =
      some (dispatch_v2 today st action category (lst.get ⟨i, hi⟩)) := by
  simp only [handle_callback_v2, hp]
  rw [if_neg (by exact_mod_cast Nat.not_le.mpr hi)]
  simp [pyIndex, Int.toNat_natCast, List.getElem?_eq_getElem hi, List.get_eq_getElem]

/-! ### Sample concrete values for witnesses and counterexamples -/

/-- A sample pending article. -/
def sampleArticle : Article :=
  { headline := "A long look at tides", teaser := "Tides, considered.",
    source := "Aeon", url := "https://example.org/tides",
    word_count := 1200, approvedDate := none }

/-- A second sample pending article with a different url. -/
def sampleArticle2 : Article :=
  { headline := "On rivers", teaser := "Rivers, considered.",
    source := "Nautilus", url := "https://example.org/rivers",
    word_count := 800, approvedDate := none }

/-- Distinct sample articles indexed by a number. -/
def sampleArticleN (i : Nat) : Article :=
  { headline := "Article", teaser := "", source := "Src",
    url := "https://example.org/" ++ toString i, word_count := 0,
    approvedDate := none }

/-- The empty articles.json state (fresh site, no pick, no lists). -/
def emptyLiveState : LiveState := { lastUpdated := "", editorsPick := none, cats := [] }

/-- Fresh v1 curator state. -/
def emptyStateV1 : StateV1 := { live := emptyLiveState, archive := [] }

/-- Fresh v2 curator state. -/
def emptyStateV2 : StateV2 := { live := emptyLiveState, archive := [] }

/-! ### Branch-level lemmas about the approve handlers -/

theorem approve_v1_already (today : String) (st : StateV1) (category : String)
    (a : Article) (h : a ∈ (dictGet? st.live.cats category).getD []) :
    approve_v1 today st category a = (st, "Already live") := by
  simp [approve_v1, h]

theorem approve_v1_cats (today : String) (st : StateV1) (category : String)
    (a : Article) (h : a ∉ (dictGet? st.live.cats category).getD []) :
    (approve_v1 today st category a).1.live.cats =
      dictSet st.live.cats category
        (capInsert a ((dictGet? st.live.cats category).getD [])) := by
  simp only [approve_v1, if_neg h]
  split <;> rfl

theorem approve_v2_already (today : String) (st : StateV2) (category : String)
    (a : Article)
    (h : a.url ∈ ((dictGet? st.live.cats category).getD []).map Article.url) :
    approve_v2 today st category a = (st, "Already live") := by
  simp [approve_v2, h]

theorem approve_v2_cats (today : String) (st : StateV2) (category : String)
    (a : Article)
    (h : a.url ∉ ((dictGet? st.live.cats category).getD []).map Article.url) :
    (approve_v2 today st category a).1.live.cats =
      dictSet st.live.cats category
        (withDate a today :: (dictGet? st.live.cats category).getD []) := by
  simp only [approve_v2, if_neg h]
  split <;> rfl

theorem dispatch_v1_approve (today : String) (st : StateV1) (category : String)
    (a : Article) :
    dispatch_v1 today st "approve" category a = approve_v1 today st category a := by
  simp [dispatch_v1]

theorem dispatch_v2_approve (today : String) (st : StateV2) (category : String)
    (a : Article) :
    dispatch_v2 today st "approve" category a = approve_v2 today st category a := by
  simp [dispatch_v2]

/-! ### Claim C2: approve is idempotent -/

/-- C2: for every pending article, invoking approve twice with identical
arguments (same category and index, pending store unchanged between the calls)
changes the live-feed state exactly once: the first call changes the
category's live list, and the second call performs no mutation and returns
"Already live".  Proved for both curators. -/
theorem c2_approve_idempotent
    (today category : String) (pending : List (String × List Article))
    (lst : List Article) (i : Nat) (stV1 : StateV1) (stV2 : StateV2)
    (hp : dictGet? pending category = some lst) (hi : i < lst.length)
    (h1 : lst.get ⟨i, hi⟩ ∉ (dictGet? stV1.live.cats category).getD [])
    (h2 : (lst.get ⟨i, hi⟩).url ∉
      ((dictGet? stV2.live.cats category).getD []).map Article.url) :
    ∃ st1 r1 st2 r2,
      handle_callback_v1 today pending stV1 "approve" category (i : Int) =
        some (st1, r1) ∧
      handle_callback_v1 today pending st1 "approve" category (i : Int) =
        some (st1, "Already live") ∧
      dictGet? st1.live.cats category ≠ dictGet? stV1.live.cats category ∧
      handle_callback_v2 today pending stV2 "approve" category (i : Int) =
        some (st2, r2) ∧
      handle_callback_v2 today pending st2 "approve" category (i : Int) =
        some (st2, "Already live") ∧
      dictGet? st2.live.cats category ≠ dictGet? stV2.live.cats category := by
  set a := lst.get ⟨i, hi⟩ with ha
  obtain ⟨st1, r1, hcall1⟩ :
      ∃ st1 r1, handle_callback_v1 today pending stV1 "approve" category (i : Int) =
        some (st1, r1) :=
    ⟨_, _, by rw [handle_callback_v1_valid today pending stV1 "approve" category lst hp i hi]⟩
  obtain ⟨st2, r2, hcall2⟩ :
      ∃ st2 r2, handle_callback_v2 today pending stV2 "approve" category (i : Int) =
        some (st2, r2) :=
    ⟨_, _, by rw [handle_callback_v2_valid today pending stV2 "approve" category lst hp i hi]⟩
  have hst1 : st1 = (approve_v1 today stV1 category a).1 := by
    have h5 := handle_callback_v1_valid today pending stV1 "approve" category lst hp i hi
    rw [hcall1, dispatch_v1_approve] at h5
    exact congrArg Prod.fst (Option.some.inj h5)
  have hst2 : st2 = (approve_v2 today stV2 category a).1 := by
    have h5 := handle_callback_v2_valid today pending stV2 "approve" category lst hp i hi
    rw [hcall2, dispatch_v2_approve] at h5
    exact congrArg Prod.fst (Option.some.inj h5)
  have hc1 : dictGet? st1.live.cats category =
      some (capInsert a ((dictGet? stV1.live.cats category).getD [])) := by
    rw [hst1, approve_v1_cats today stV1 category a h1, dictGet?_dictSet_self]
  have hc2 : dictGet? st2.live.cats category =
      some (withDate a today :: (dictGet? stV2.live.cats category).getD []) := by
    rw [hst2, approve_v2_cats today stV2 category a h2, dictGet?_dictSet_self]
  refine ⟨st1, r1, st2, r2, hcall1, ?_, ?_, hcall2, ?_, ?_⟩
  · rw [handle_callback_v1_valid today pending st1 "approve" category lst hp i hi,
      dispatch_v1_approve, approve_v1_already]
    rw [hc1]
    exact mem_capInsert_self a _
  · rw [hc1]
    intro heq
    have hget := congrArg (fun o => o.getD ([] : List Article)) heq.symm
    simp only [Option.getD_some] at hget
    exact h1 (by rw [hget]; exact mem_capInsert_self a _)
  · rw [handle_callback_v2_valid today pending st2 "approve" category lst hp i hi,
      dispatch_v2_approve, approve_v2_already]
    rw [hc2]
    exact List.mem_map.mpr ⟨withDate a today, List.mem_cons_self _ _, rfl⟩
  · rw [hc2]
    intro heq
    have hget := congrArg (fun o => o.getD ([] : List Article)) heq.symm
    simp only [Option.getD_some] at hget
    refine h2 ?_
    rw [hget]
    exact List.mem_map.mpr ⟨withDate a today, List.mem_cons_self _ _, rfl⟩

/-- Witness for C2 at a concrete input. -/
theorem c2_approve_idempotent_witness :
    ∃ st1 r1 st2 r2,
      handle_callback_v1 "2026-01-01" [("science", [sampleArticle])] emptyStateV1
        "approve" "science" ((0 : Nat) : Int) = some (st1, r1) ∧
      handle_callback_v1 "2026-01-01" [("science", [sampleArticle])] st1
        "approve" "science" ((0 : Nat) : Int) = some (st1, "Already live") ∧
      dictGet? st1.live.cats "science" ≠ dictGet? emptyStateV1.live.cats "science" ∧
      handle_callback_v2 "2026-01-01" [("science", [sampleArticle])] emptyStateV2
        "approve" "science" ((0 : Nat) : Int) = some (st2, r2) ∧
      handle_callback_v2 "2026-01-01" [("science", [sampleArticle])] st2
        "approve" "science" ((0 : Nat) : Int) = some (st2, "Already live") ∧
      dictGet? st2.live.cats "science" ≠ dictGet? emptyStateV2.live.cats "science" :=
  c2_approve_idempotent "2026-01-01" "science" [("science", [sampleArticle])]
    [sampleArticle] 0 emptyStateV1 emptyStateV2 (by decide) (by decide)
    (by decide) (by decide)

/-! ### Claim C4: unknown category or out-of-range index -/

/-- C4 (amended): for every callback whose category is missing from the pending
store, or whose index is at least the number of pending articles in that
category, handle_callback returns the user-visible "Article not found" and
performs no mutation of the live feed, archive or pending store (the state is
returned unchanged; handle_callback never writes the pending store).  The
amendment: the source guard is `index >= len(pending[category])`, so a
negative out-of-range index is not covered (see the counterexample). -/
theorem c4_not_found (today action category : String) (index : Int)
    (pending : List (String × List Article)) (stV1 : StateV1) (stV2 : StateV2)
    (h : dictGet? pending category = none ∨
         ∃ lst, dictGet? pending category = some lst ∧ (lst.length : Int) ≤ index) :
    handle_callback_v1 today pending stV1 action category index =
      some (stV1, "Article not found") ∧
    handle_callback_v2 today pending stV2 action category index =
      some (stV2, "Article not found") := by
  rcases h with h | ⟨lst, hl, hle⟩
  · constructor
    · simp [handle_callback_v1, h]
    · simp [handle_callback_v2, h]
  · constructor
    · simp [handle_callback_v1, hl, if_pos hle]
    · simp [handle_callback_v2, hl, if_pos hle]

/-- Witness for C4 at a concrete input (stale index 3 with one pending article). -/
theorem c4_not_found_witness :
    handle_callback_v1 "2026-01-01" [("science", [sampleArticle])] emptyStateV1
      "approve" "science" 3 = some (emptyStateV1, "Article not found") ∧
    handle_callback_v2 "2026-01-01" [("science", [sampleArticle])] emptyStateV2
      "approve" "science" 3 = some (emptyStateV2, "Article not found") :=
  c4_not_found "2026-01-01" "approve" "science" 3 [("science", [sampleArticle])]
    emptyStateV1 emptyStateV2 (Or.inr ⟨[sampleArticle], by decide, by decide⟩)

/-- C4 counterexample to the claim as stated: the callback
"approve:science:-2" with a single pending science article references no
pending article, yet handle_callback raises an uncaught IndexError
(modelled `none`) instead of returning the "Article not found" message. -/
theorem c4_negative_index_counterexample :
    handle_callback_v1 "2026-01-01" [("science", [sampleArticle])] emptyStateV1
      "approve" "science" (-2) = none ∧
    handle_callback_v2 "2026-01-01" [("science", [sampleArticle])] emptyStateV2
      "approve" "science" (-2) = none := by
  constructor <;> rfl

/-! ### Claim C3: editor's-pick freshness -/

theorem approve_v1_pick_stale (today : String) (st : StateV1) (category : String)
    (a : Article)
    (hnf : ¬(st.live.lastUpdated = today ∧ st.live.editorsPick.isSome = true))
    (hnl : a ∉ (dictGet? st.live.cats category).getD []) :
    (approve_v1 today st category a).1.live.editorsPick = some a ∧
    (approve_v1 today st category a).1.live.lastUpdated = today := by
  constructor <;> simp only [approve_v1, if_neg hnl, if_neg hnf]

theorem approve_v1_pick_fresh (today : String) (st : StateV1) (category : String)
    (a p : Article) (hf : st.live.lastUpdated = today)
    (hpick : st.live.editorsPick = some p) :
    (approve_v1 today st category a).1.live.editorsPick = some p ∧
    (approve_v1 today st category a).1.live.lastUpdated = today := by
  by_cases hmem : a ∈ (dictGet? st.live.cats category).getD []
  · simp only [approve_v1, if_pos hmem]
    exact ⟨hpick, hf⟩
  · have hcond : st.live.lastUpdated = today ∧ st.live.editorsPick.isSome = true :=
      ⟨hf, by rw [hpick]; rfl⟩
    simp only [approve_v1, if_neg hmem, if_pos hcond]
    exact ⟨hpick, hf⟩

theorem approve_v2_pick_stale (today : String) (st : StateV2) (category : String)
    (a : Article)
    (hnf : ¬(st.live.lastUpdated = today ∧ st.live.editorsPick.isSome = true))
    (hnl : a.url ∉ ((dictGet? st.live.cats category).getD []).map Article.url) :
    (approve_v2 today st category a).1.live.editorsPick = some (withDate a today) ∧
    (approve_v2 today st category a).1.live.lastUpdated = today := by
  constructor <;> simp only [approve_v2, if_neg hnl, if_neg hnf]

theorem approve_v2_pick_fresh (today : String) (st : StateV2) (category : String)
    (a p : Article) (hf : st.live.lastUpdated = today)
    (hpick : st.live.editorsPick = some p) :
    (approve_v2 today st category a).1.live.editorsPick = some p ∧
    (approve_v2 today st category a).1.live.lastUpdated = today := by
  by_cases hmem : a.url ∈ ((dictGet? st.live.cats category).getD []).map Article.url
  · simp only [approve_v2, if_pos hmem]
    exact ⟨hpick, hf⟩
  · have hcond : st.live.lastUpdated = today ∧ st.live.editorsPick.isSome = true :=
      ⟨hf, by rw [hpick]; rfl⟩
    simp only [approve_v2, if_neg hmem, if_pos hcond]
    exact ⟨hpick, hf⟩

theorem reject_v1_pick_untouched (st : StateV1) (category : String) (a : Article) :
    (reject_v1 st category a).1.live.editorsPick = st.live.editorsPick ∧
    (reject_v1 st category a).1.live.lastUpdated = st.live.lastUpdated := by
  unfold reject_v1
  split <;> exact ⟨rfl, rfl⟩

theorem reject_v2_pick_untouched (st : StateV2) (category : String) (a : Article) :
    (reject_v2 st category a).1.live.editorsPick = st.live.editorsPick ∧
    (reject_v2 st category a).1.live.lastUpdated = st.live.lastUpdated := by
  unfold reject_v2
  split <;> exact ⟨rfl, rfl⟩

/-- C3: within a single calendar day, the first (state-changing) approve sets
the editor's pick to the approved article (v2 additionally stamps its
approvedDate) and stamps today as lastUpdated; once the pick is set for today
(lastUpdated = today and a pick present), any further approve that day leaves
the pick unchanged, reject never touches the pick or the date, and only the
explicit pick action replaces the pick.  Proved for both curators. -/
theorem c3_editors_pick_freshness (today category : String) (a p : Article)
    (stV1 : StateV1) (stV2 : StateV2) :
    (¬(stV1.live.lastUpdated = today ∧ stV1.live.editorsPick.isSome = true) →
      a ∉ (dictGet? stV1.live.cats category).getD [] →
      (approve_v1 today stV1 category a).1.live.editorsPick = some a ∧
      (approve_v1 today stV1 category a).1.live.lastUpdated = today) ∧
    (stV1.live.lastUpdated = today → stV1.live.editorsPick = some p →
      (approve_v1 today stV1 category a).1.live.editorsPick = some p ∧
      (approve_v1 today stV1 category a).1.live.lastUpdated = today) ∧
    ((reject_v1 stV1 category a).1.live.editorsPick = stV1.live.editorsPick ∧
     (reject_v1 stV1 category a).1.live.lastUpdated = stV1.live.lastUpdated) ∧
    ((pick_v1 today stV1 category a).1.live.editorsPick = some a) ∧
    (¬(stV2.live.lastUpdated = today ∧ stV2.live.editorsPick.isSome = true) →
      a.url ∉ ((dictGet? stV2.live.cats category).getD []).map Article.url →
      (approve_v2 today stV2 category a).1.live.editorsPick = some (withDate a today) ∧
      (approve_v2 today stV2 category a).1.live.lastUpdated = today) ∧
    (stV2.live.lastUpdated = today → stV2.live.editorsPick = some p →
      (approve_v2 today stV2 category a).1.live.editorsPick = some p ∧
      (approve_v2 today stV2 category a).1.live.lastUpdated = today) ∧
    ((reject_v2 stV2 category a).1.live.editorsPick = stV2.live.editorsPick ∧
     (reject_v2 stV2 category a).1.live.lastUpdated = stV2.live.lastUpdated) ∧
    ((pick_v2 today stV2 category a).1.live.editorsPick = some a ∨
     (pick_v2 today stV2 category a).1.live.editorsPick = some (withDate a today)) := by
  refine ⟨?_, ?_, ?_, ?_, ?_, ?_, ?_, ?_⟩
  · exact fun hnf hnl => approve_v1_pick_stale today stV1 category a hnf hnl
  · exact fun hf hpick => approve_v1_pick_fresh today stV1 category a p hf hpick
  · exact reject_v1_pick_untouched stV1 category a
  · rfl
  · exact fun hnf hnl => approve_v2_pick_stale today stV2 category a hnf hnl
  · exact fun hf hpick => approve_v2_pick_fresh today stV2 category a p hf hpick
  · exact reject_v2_pick_untouched stV2 category a
  · by_cases hmem : a.url ∈ ((dictGet? stV2.live.cats category).getD []).map Article.url
    · exact Or.inl (by simp [pick_v2, hmem])
    · exact Or.inr (by simp [pick_v2, hmem])

/-- Witness for C3: on a fresh day the approve auto-promotes the article, and
once fresh, a same-day approve of a second article leaves the pick alone. -/
theorem c3_editors_pick_freshness_witness :
    ((approve_v1 "2026-01-01" emptyStateV1 "science" sampleArticle).1.live.editorsPick =
      some sampleArticle ∧
     (approve_v1 "2026-01-01" emptyStateV1 "science" sampleArticle).1.live.lastUpdated =
      "2026-01-01") ∧
    ((approve_v2 "2026-01-01" emptyStateV2 "science" sampleArticle).1.live.editorsPick =
      some (withDate sampleArticle "2026-01-01") ∧
     (approve_v2 "2026-01-01" emptyStateV2 "science" sampleArticle).1.live.lastUpdated =
      "2026-01-01") ∧
    ((approve_v1 "2026-01-01"
        { live := { lastUpdated := "2026-01-01", editorsPick := some sampleArticle,
                    cats := [] }, archive := [] }
        "science" sampleArticle2).1.live.editorsPick = some sampleArticle) :=
  ⟨(c3_editors_pick_freshness "2026-01-01" "science" sampleArticle sampleArticle
      emptyStateV1 emptyStateV2).1 (by decide) (by decide),
   (c3_editors_pick_freshness "2026-01-01" "science" sampleArticle sampleArticle
      emptyStateV1 emptyStateV2).2.2.2.2.1 (by decide) (by decide),
   ((c3_editors_pick_freshness "2026-01-01" "science" sampleArticle2 sampleArticle
      { live := { lastUpdated := "2026-01-01", editorsPick := some sampleArticle,
                  cats := [] }, archive := [] }
      emptyStateV2).2.1 (by decide) (by decide)).1⟩

/-! ### Claim C1: the live-list cap -/

/-- Every category list of the live feed holds at most 15 articles. -/
def capInvariant (st : StateV1) : Prop :=
  ∀ p ∈ st.live.cats, p.2.length ≤ 15

/-- The curator loop applying one approve callback: on an uncaught exception the
state file is simply not rewritten. -/
def approveStep_v1 (today : String) (pending : List (String × List Article))
    (st : StateV1) (e : String × Int) : StateV1 :=
  match handle_callback_v1 today pending st "approve" e.1 e.2 with
  | some (st', _) => st'
  | none => st

/-- Same runner for the v2 curator. -/
def approveStep_v2 (today : String) (pending : List (String × List Article))
    (st : StateV2) (e : String × Int) : StateV2 :=
  match handle_callback_v2 today pending st "approve" e.1 e.2 with
  | some (st', _) => st'
  | none => st

theorem dictGet?_mem {α : Type} (d : List (String × α)) (k : String) (v : α)
    (h : dictGet? d k = some v) : (k, v) ∈ d := by
  induction d with
  | nil => simp [dictGet?] at h
  | cons q rest ih =>
      obtain ⟨qk, qv⟩ := q
      by_cases hq : qk = k
      · subst hq
        have h2 : qv = v := by simpa [dictGet?] using h
        simp [h2]
      · simp only [dictGet?, hq, if_false] at h
        exact List.mem_cons_of_mem _ (ih h)

theorem handle_v1_some (today : String) (pending : List (String × List Article))
    (st : StateV1) (action category : String) (index : Int) (st' : StateV1) (r : String)
    (h : handle_callback_v1 today pending st action category index = some (st', r)) :
    st' = st ∨ ∃ a, (st', r) = dispatch_v1 today st action category a := by
  cases hd : dictGet? pending category with
  | none =>
      simp only [handle_callback_v1, hd] at h
      exact Or.inl (congrArg Prod.fst (Option.some.inj h)).symm
  | some lst =>
      simp only [handle_callback_v1, hd] at h
      split at h
      · exact Or.inl (congrArg Prod.fst (Option.some.inj h)).symm
      · cases hi : pyIndex lst index with
        | none =>
            simp only [hi] at h
            exact Option.noConfusion h
        | some a =>
            simp only [hi] at h
            exact Or.inr ⟨a, (Option.some.inj h).symm⟩

theorem handle_v2_some (today : String) (pending : List (String × List Article))
    (st : StateV2) (action category : String) (index : Int) (st' : StateV2) (r : String)
    (h : handle_callback_v2 today pending st action category index = some (st', r)) :
    st' = st ∨ ∃ a, (st', r) = dispatch_v2 today st action category a := by
  cases hd : dictGet? pending category with
  | none =>
      simp only [handle_callback_v2, hd] at h
      exact Or.inl (congrArg Prod.fst (Option.some.inj h)).symm
  | some lst =>
      simp only [handle_callback_v2, hd] at h
      split at h
      · exact Or.inl (congrArg Prod.fst (Option.some.inj h)).symm
      · cases hi : pyIndex lst index with
        | none =>
            simp only [hi] at h
            exact Option.noConfusion h
        | some a =>
            simp only [hi] at h
            exact Or.inr ⟨a, (Option.some.inj h).symm⟩

theorem approve_v1_archive (today : String) (st : StateV1) (category : String)
    (a : Article) (h : a ∉ (dictGet? st.live.cats category).getD []) :
    (approve_v1 today st category a).1.archive =
      add_to_archive_v1 st.archive a category today := by
  simp only [approve_v1, if_neg h]
  split <;> rfl

theorem approve_v1_cap (today : String) (st : StateV1) (category : String)
    (a : Article) (hcap : capInvariant st) :
    capInvariant (approve_v1 today st category a).1 := by
  by_cases hmem : a ∈ (dictGet? st.live.cats category).getD []
  · rw [approve_v1_already today st category a hmem]
    exact hcap
  · intro p hp
    rw [approve_v1_cats today st category a hmem] at hp
    rcases mem_dictSet _ _ _ p hp with h | h
    · rw [h]
      exact capInsert_length_le a _
    · exact hcap p h

theorem reject_v1_cats (st : StateV1) (category : String) (a : Article) :
    (reject_v1 st category a).1.live.cats = st.live.cats ∨
    ∃ lst0, dictGet? st.live.cats category = some lst0 ∧
      (reject_v1 st category a).1.live.cats =
        dictSet st.live.cats category (lst0.filter (fun x => x.url ≠ a.url)) := by
  cases hd : dictGet? st.live.cats category with
  | none =>
      left
      simp [reject_v1, hd]
  | some lst0 =>
      right
      refine ⟨lst0, rfl, ?_⟩
      simp [reject_v1, hd]

theorem reject_v1_cap (st : StateV1) (category : String) (a : Article)
    (hcap : capInvariant st) : capInvariant (reject_v1 st category a).1 := by
  rcases reject_v1_cats st category a with h | ⟨lst0, hd, h⟩
  · intro p hp
    rw [h] at hp
    exact hcap p hp
  · intro p hp
    rw [h] at hp
    rcases mem_dictSet _ _ _ p hp with he | he
    · rw [he]
      exact le_trans (List.length_filter_le _ _)
        (hcap (category, lst0) (dictGet?_mem _ _ _ hd))
    · exact hcap p he

theorem pick_v1_cats (today : String) (st : StateV1) (category : String) (a : Article) :
    (pick_v1 today st category a).1.live.cats =
      dictSet st.live.cats category
        (if a ∈ (dictGet? st.live.cats category).getD []
         then (dictGet? st.live.cats category).getD []
         else capInsert a ((dictGet? st.live.cats category).getD [])) := rfl

theorem pick_v1_cap (today : String) (st : StateV1) (category : String) (a : Article)
    (hcap : capInvariant st) : capInvariant (pick_v1 today st category a).1 := by
  intro p hp
  rw [pick_v1_cats] at hp
  rcases mem_dictSet _ _ _ p hp with he | he
  · rw [he]
    simp only
    split
    · cases hg : dictGet? st.live.cats category with
      | none => simp
      | some l =>
          simp only [hg, Option.getD_some]
          exact hcap (category, l) (dictGet?_mem _ _ _ hg)
    · exact capInsert_length_le a _
  · exact hcap p he

theorem dispatch_v1_cap (today : String) (st : StateV1) (action category : String)
    (a : Article) (hcap : capInvariant st) :
    capInvariant (dispatch_v1 today st action category a).1 := by
  unfold dispatch_v1
  split
  · exact approve_v1_cap today st category a hcap
  · split
    · exact reject_v1_cap st category a hcap
    · split
      · exact pick_v1_cap today st category a hcap
      · exact hcap

theorem approveStep_v1_cap (today : String) (pending : List (String × List Article))
    (st : StateV1) (e : String × Int) (hcap : capInvariant st) :
    capInvariant (approveStep_v1 today pending st e) := by
  unfold approveStep_v1
  cases hh : handle_callback_v1 today pending st "approve" e.1 e.2 with
  | none => exact hcap
  | some pr =>
      rcases handle_v1_some today pending st "approve" e.1 e.2 pr.1 pr.2
        (by rw [hh]) with h | ⟨a, h⟩
      · simpa [h] using hcap
      · have : pr.1 = (dispatch_v1 today st "approve" e.1 a).1 :=
          congrArg Prod.fst h
        simp only
        rw [this]
        exact dispatch_v1_cap today st "approve" e.1 a hcap

/-- C1 (amended): for the v1 curator, any sequence of approve callbacks applied
from a state whose category lists are all within the 15-item cap keeps every
category list within the cap; and the archive outcome of a successful approve
is independent of the live list being approved into (in particular, evicting
the oldest entry beyond the cap changes no archive entry).  The amendment: the
claim fails for the v2 curator, whose approve branch applies no cap (see the
counterexample). -/
theorem c1_live_cap (today : String) (pending : List (String × List Article))
    (events : List (String × Int)) (st : StateV1) (hcap : capInvariant st) :
    capInvariant (events.foldl (approveStep_v1 today pending) st) ∧
    (∀ (category : String) (a : Article) (stA stB : StateV1),
      stA.archive = stB.archive →
      a ∉ (dictGet? stA.live.cats category).getD [] →
      a ∉ (dictGet? stB.live.cats category).getD [] →
      (approve_v1 today stA category a).1.archive =
        (approve_v1 today stB category a).1.archive) := by
  constructor
  · induction events generalizing st with
    | nil => exact hcap
    | cons e es ih => exact ih _ (approveStep_v1_cap today pending st e hcap)
  · intro category a stA stB har hA hB
    rw [approve_v1_archive today stA category a hA,
        approve_v1_archive today stB category a hB, har]

/-- Witness for C1 at a concrete input. -/
theorem c1_live_cap_witness :
    capInvariant ([(("science" : String), (0 : Int))].foldl
      (approveStep_v1 "2026-01-01" [("science", [sampleArticle])]) emptyStateV1) ∧
    (approve_v1 "2026-01-01" emptyStateV1 "science" sampleArticle).1.archive =
      (approve_v1 "2026-01-01"
        { live := { lastUpdated := "", editorsPick := none,
                    cats := [("science", [sampleArticle2])] }, archive := [] }
        "science" sampleArticle).1.archive :=
  ⟨(c1_live_cap "2026-01-01" [("science", [sampleArticle])]
      [(("science" : String), (0 : Int))] emptyStateV1
      (by simp [capInvariant, emptyStateV1, emptyLiveState])).1,
   (c1_live_cap "2026-01-01" [("science", [sampleArticle])]
      [(("science" : String), (0 : Int))] emptyStateV1
      (by simp [capInvariant, emptyStateV1, emptyLiveState])).2
     "science" sampleArticle emptyStateV1
     { live := { lastUpdated := "", editorsPick := none,
                 cats := [("science", [sampleArticle2])] }, archive := [] }
     rfl (by decide) (by decide)⟩

/-- Pending store used by the C1 counterexample: 16 distinct science articles. -/
def pendingC1 : List (String × List Article) :=
  [("science", (List.range 16).map sampleArticleN)]

/-- C1 counterexample to the claim as stated: in the v2 curator, approving 16
distinct pending science articles from the empty feed leaves the science live
list with 16 entries, exceeding the configured cap of 15 (v2's approve branch
never evicts). -/
theorem c1_cap_counterexample :
    (((List.range 16).map (fun i => (("science" : String), (i : Int)))).foldl
        (approveStep_v2 "2026-01-01" pendingC1) emptyStateV2).live.cats.map
      (fun p => (p.1, p.2.length)) = [("science", 16)] := by decide

/-! ### Claim C5: the archive under curation operations -/

theorem add_to_archive_v1_url_mem (ar : List ArchiveRowV1) (a : Article)
    (c t : String) (row : ArchiveRowV1) (hrow : row ∈ ar) :
    ∃ row' ∈ add_to_archive_v1 ar a c t, row'.url = row.url := by
  by_cases hu : row.url = a.url
  · refine ⟨{ url := a.url, headline := a.headline, teaser := a.teaser,
              source := a.source, category := c, approved_date := t }, ?_, hu.symm⟩
    simp [add_to_archive_v1]
  · exact ⟨row, List.mem_append_left _ (List.mem_filter.mpr ⟨hrow, by simp [hu]⟩), rfl⟩

theorem add_to_archive_v2_url_mem (ar : List ArchiveRowV2) (a : Article)
    (c t : String) (row : ArchiveRowV2) (hrow : row ∈ ar) :
    ∃ row' ∈ add_to_archive_v2 ar a c t, row'.url = row.url := by
  by_cases hu : row.url = a.url
  · refine ⟨{ url := a.url, headline := a.headline, teaser := a.teaser,
              source := a.source, category := c, word_count := a.word_count,
              approved_date := t }, ?_, hu.symm⟩
    simp [add_to_archive_v2]
  · exact ⟨row, List.mem_append_left _ (List.mem_filter.mpr ⟨hrow, by simp [hu]⟩), rfl⟩

theorem reject_v1_archive (st : StateV1) (category : String) (a : Article) :
    (reject_v1 st category a).1.archive = st.archive := by
  unfold reject_v1
  split <;> rfl

theorem reject_v2_archive (st : StateV2) (category : String) (a : Article) :
    (reject_v2 st category a).1.archive = st.archive := by
  unfold reject_v2
  split <;> rfl

theorem approve_v2_archive (today : String) (st : StateV2) (category : String)
    (a : Article)
    (h : a.url ∉ ((dictGet? st.live.cats category).getD []).map Article.url) :
    (approve_v2 today st category a).1.archive =
      add_to_archive_v2 st.archive (withDate a today) category today := by
  simp only [approve_v2, if_neg h]
  split <;> rfl

theorem dispatch_v1_archive_cases (today : String) (st : StateV1)
    (action category : String) (a : Article) :
    (dispatch_v1 today st action category a).1.archive = st.archive ∨
    (dispatch_v1 today st action category a).1.archive =
      add_to_archive_v1 st.archive a category today := by
  unfold dispatch_v1
  split
  · by_cases hmem : a ∈ (dictGet? st.live.cats category).getD []
    · rw [approve_v1_already today st category a hmem]
      exact Or.inl rfl
    · exact Or.inr (approve_v1_archive today st category a hmem)
  · split
    · exact Or.inl (reject_v1_archive st category a)
    · split
      · exact Or.inr rfl
      · exact Or.inl rfl

theorem dispatch_v2_archive_cases (today : String) (st : StateV2)
    (action category : String) (a : Article) :
    (dispatch_v2 today st action category a).1.archive = st.archive ∨
    (dispatch_v2 today st action category a).1.archive =
      add_to_archive_v2 st.archive (withDate a today) category today := by
  unfold dispatch_v2
  split
  · by_cases hmem : a.url ∈ ((dictGet? st.live.cats category).getD []).map Article.url
    · rw [approve_v2_already today st category a hmem]
      exact Or.inl rfl
    · exact Or.inr (approve_v2_archive today st category a hmem)
  · split
    · exact Or.inl (reject_v2_archive st category a)
    · split
      · by_cases hmem : a.url ∈ ((dictGet? st.live.cats category).getD []).map Article.url
        · exact Or.inl (by simp [pick_v2, hmem])
        · exact Or.inr (by simp [pick_v2, hmem])
      · exact Or.inl rfl

/-- C5 (amended): no curation operation removes a url from the archive - every
archive row's url survives any handle_callback, in both curators; rows whose
url differs from the acted-on article are kept verbatim by the
`INSERT OR REPLACE`; reject and the live-list cap eviction leave the archive
entirely unchanged.  The amendment: `add_to_archive` uses `INSERT OR REPLACE`,
so re-approving (or re-picking) a url that is already archived replaces that
row with a fresh one stamped today, rather than leaving it untouched (see the
counterexample). -/
theorem c5_archive_append_only (today action category : String) (index : Int)
    (pending : List (String × List Article))
    (stV1 st1' : StateV1) (stV2 st2' : StateV2) (r1 r2 : String)
    (h1 : handle_callback_v1 today pending stV1 action category index = some (st1', r1))
    (h2 : handle_callback_v2 today pending stV2 action category index = some (st2', r2)) :
    (∀ row ∈ stV1.archive, ∃ row' ∈ st1'.archive, row'.url = row.url) ∧
    (∀ row ∈ stV2.archive, ∃ row' ∈ st2'.archive, row'.url = row.url) ∧
    (∀ (ar : List ArchiveRowV1) (a : Article) (c t : String) (row : ArchiveRowV1),
      row ∈ ar → row.url ≠ a.url → row ∈ add_to_archive_v1 ar a c t) ∧
    (∀ (ar : List ArchiveRowV2) (a : Article) (c t : String) (row : ArchiveRowV2),
      row ∈ ar → row.url ≠ a.url → row ∈ add_to_archive_v2 ar a c t) ∧
    (∀ (st : StateV1) (c : String) (a : Article),
      (reject_v1 st c a).1.archive = st.archive) ∧
    (∀ (st : StateV2) (c : String) (a : Article),
      (reject_v2 st c a).1.archive = st.archive) := by
  refine ⟨?_, ?_, ?_, ?_, ?_, ?_⟩
  · intro row hrow
    rcases handle_v1_some today pending stV1 action category index st1' r1 h1 with
      heq | ⟨a, heq⟩
    · rw [heq]
      exact ⟨row, hrow, rfl⟩
    · have har : st1'.archive = (dispatch_v1 today stV1 action category a).1.archive :=
        congrArg (fun x => x.1.archive) heq
      rcases dispatch_v1_archive_cases today stV1 action category a with hc | hc
      · rw [har, hc]
        exact ⟨row, hrow, rfl⟩
      · rw [har, hc]
        exact add_to_archive_v1_url_mem stV1.archive a category today row hrow
  · intro row hrow
    rcases handle_v2_some today pending stV2 action category index st2' r2 h2 with
      heq | ⟨a, heq⟩
    · rw [heq]
      exact ⟨row, hrow, rfl⟩
    · have har : st2'.archive = (dispatch_v2 today stV2 action category a).1.archive :=
        congrArg (fun x => x.1.archive) heq
      rcases dispatch_v2_archive_cases today stV2 action category a with hc | hc
      · rw [har, hc]
        exact ⟨row, hrow, rfl⟩
      · rw [har, hc]
        exact add_to_archive_v2_url_mem stV2.archive (withDate a today) category today
          row hrow
  · intro ar a c t row hrow hu
    exact List.mem_append_left _ (List.mem_filter.mpr ⟨hrow, by simp [hu]⟩)
  · intro ar a c t row hrow hu
    exact List.mem_append_left _ (List.mem_filter.mpr ⟨hrow, by simp [hu]⟩)
  · exact reject_v1_archive
  · exact reject_v2_archive

/-- Archive already holding the sample article's url under an older date. -/
def stC5 : StateV1 :=
  { live := emptyLiveState,
    archive := [{ url := "https://example.org/tides", headline := "A long look at tides",
                  teaser := "Tides, considered.", source := "Aeon",
                  category := "science", approved_date := "2026-01-01" }] }

/-- Witness for C5 at a concrete input. -/
theorem c5_archive_append_only_witness :
    ∃ row' ∈ (approve_v1 "2026-02-02" stC5 "science" sampleArticle).1.archive,
      row'.url = "https://example.org/tides" :=
  (c5_archive_append_only "2026-02-02" "approve" "science" 0
      [("science", [sampleArticle])] stC5
      (approve_v1 "2026-02-02" stC5 "science" sampleArticle).1 emptyStateV2
      (approve_v2 "2026-02-02" emptyStateV2 "science" sampleArticle).1
      (approve_v1 "2026-02-02" stC5 "science" sampleArticle).2
      (approve_v2 "2026-02-02" emptyStateV2 "science" sampleArticle).2
      (by decide) (by decide)).1
    { url := "https://example.org/tides", headline := "A long look at tides",
      teaser := "Tides, considered.", source := "Aeon",
      category := "science", approved_date := "2026-01-01" } (by decide)

/-- C5 counterexample to the claim as stated: re-approving a url whose article
was no longer live but already archived (dated 2026-01-01) replaces the
existing archive row - afterwards the only row for that url carries the new
date 2026-02-02, so the existing row was altered, not preserved. -/
theorem c5_rearchive_counterexample :
    (handle_callback_v1 "2026-02-02" [("science", [sampleArticle])] stC5
      "approve" "science" 0).map (fun x => x.1.archive) =
      some [{ url := "https://example.org/tides", headline := "A long look at tides",
              teaser := "Tides, considered.", source := "Aeon",
              category := "science", approved_date := "2026-02-02" }] := by decide

/-! ### Claim C6: the pick action -/

/-- C6 (amended): what the pick action actually does.  v1: sets the editor's
pick but leaves the feed's last-updated date untouched, inserts the article at
the front of the category list when it is not already there by dict equality
(capped at 15), and always re-archives the pick (`INSERT OR REPLACE`).
v2: sets the editor's pick and stamps today's date; when the url is not yet
live it stamps the `approvedDate`, inserts at the front with no cap and
archives (replacing any existing row of that url); when the url is already
live it leaves the list and the archive untouched. -/
theorem c6_pick_behavior (today category : String) (a : Article)
    (stV1 : StateV1) (stV2 : StateV2) :
    (pick_v1 today stV1 category a).1.live.editorsPick = some a ∧
    (pick_v1 today stV1 category a).1.live.lastUpdated = stV1.live.lastUpdated ∧
    (pick_v1 today stV1 category a).1.archive =
      add_to_archive_v1 stV1.archive a category today ∧
    (a ∉ (dictGet? stV1.live.cats category).getD [] →
      dictGet? (pick_v1 today stV1 category a).1.live.cats category =
        some (capInsert a ((dictGet? stV1.live.cats category).getD []))) ∧
    (a ∈ (dictGet? stV1.live.cats category).getD [] →
      dictGet? (pick_v1 today stV1 category a).1.live.cats category =
        some ((dictGet? stV1.live.cats category).getD [])) ∧
    (pick_v2 today stV2 category a).1.live.lastUpdated = today ∧
    (a.url ∉ ((dictGet? stV2.live.cats category).getD []).map Article.url →
      (pick_v2 today stV2 category a).1.live.editorsPick = some (withDate a today) ∧
      dictGet? (pick_v2 today stV2 category a).1.live.cats category =
        some (withDate a today :: (dictGet? stV2.live.cats category).getD []) ∧
      (pick_v2 today stV2 category a).1.archive =
        add_to_archive_v2 stV2.archive (withDate a today) category today) ∧
    (a.url ∈ ((dictGet? stV2.live.cats category).getD []).map Article.url →
      (pick_v2 today stV2 category a).1.live.editorsPick = some a ∧
      dictGet? (pick_v2 today stV2 category a).1.live.cats category =
        some ((dictGet? stV2.live.cats category).getD []) ∧
      (pick_v2 today stV2 category a).1.archive = stV2.archive) := by
  refine ⟨rfl, rfl, rfl, ?_, ?_, ?_, ?_, ?_⟩
  · intro h
    rw [pick_v1_cats, if_neg h, dictGet?_dictSet_self]
  · intro h
    rw [pick_v1_cats, if_pos h, dictGet?_dictSet_self]
  · by_cases hmem : a.url ∈ ((dictGet? stV2.live.cats category).getD []).map Article.url
    · simp [pick_v2, hmem]
    · simp [pick_v2, hmem]
  · intro h
    simp only [pick_v2, if_neg h]
    exact ⟨by trivial, dictGet?_dictSet_self _ _ _, by trivial⟩
  · intro h
    simp only [pick_v2, if_pos h]
    exact ⟨by trivial, dictGet?_dictSet_self _ _ _, by trivial⟩

/-- Witness for C6 at a concrete input. -/
theorem c6_pick_behavior_witness :
    (pick_v1 "2026-02-02"
      { live := { lastUpdated := "2026-01-01", editorsPick := none, cats := [] },
        archive := [] } "science" sampleArticle).1.live.lastUpdated = "2026-01-01" ∧
    dictGet? (pick_v2 "2026-02-02" emptyStateV2 "science"
      sampleArticle).1.live.cats "science" =
      some [withDate sampleArticle "2026-02-02"] :=
  ⟨(c6_pick_behavior "2026-02-02" "science" sampleArticle
      { live := { lastUpdated := "2026-01-01", editorsPick := none, cats := [] },
        archive := [] } emptyStateV2).2.1,
   ((c6_pick_behavior "2026-02-02" "science" sampleArticle
      { live := { lastUpdated := "2026-01-01", editorsPick := none, cats := [] },
        archive := [] } emptyStateV2).2.2.2.2.2.2.1 (by decide)).2.1⟩

/-- C6 counterexample to the claim as stated: a v1 pick on a valid pending
article sets the editor's pick but does not stamp today's date - the feed's
lastUpdated stays at its stale value 2026-01-01 although today is
2026-02-02. -/
theorem c6_pick_no_stamp_counterexample :
    (handle_callback_v1 "2026-02-02" [("science", [sampleArticle])]
      { live := { lastUpdated := "2026-01-01", editorsPick := none, cats := [] },
        archive := [] } "pick" "science" 0).map
      (fun x => (x.1.live.lastUpdated, x.1.live.editorsPick)) =
      some ("2026-01-01", some sampleArticle) := by decide

/-! ### Claim C7: teaser truncation -/

theorem beforeLastSpace_spec (l : List Char) :
    ∀ r, beforeLastSpace l = some r → r <+: l ∧ l.get? r.length = some ' ' := by
  induction l with
  | nil => intro r h; cases h
  | cons c cs ih =>
      intro r h
      simp only [beforeLastSpace] at h
      cases hb : beforeLastSpace cs with
      | some r' =>
          rw [hb] at h
          obtain rfl : c :: r' = r := Option.some.inj h
          obtain ⟨h1, h2⟩ := ih r' hb
          exact ⟨List.cons_prefix_cons.mpr ⟨rfl, h1⟩, by simpa using h2⟩
      | none =>
          rw [hb] at h
          by_cases hc : c = ' '
          · rw [if_pos hc] at h
            obtain rfl : ([] : List Char) = r := Option.some.inj h
            exact ⟨List.nil_prefix, by simpa [hc]⟩
          · rw [if_neg hc] at h
            cases h

theorem beforeLastSpace_of_mem (l : List Char) (h : ' ' ∈ l) :
    ∃ r, beforeLastSpace l = some r := by
  induction l with
  | nil => cases h
  | cons c cs ih =>
      simp only [beforeLastSpace]
      cases hb : beforeLastSpace cs with
      | some r' => exact ⟨c :: r', rfl⟩
      | none =>
          rcases List.mem_cons.mp h with hc | hc
          · exact ⟨[], by rw [if_pos hc.symm]⟩
          · obtain ⟨r, hr⟩ := ih hc
            rw [hr] at hb
            cases hb

theorem beforeLastSpace_of_not_mem (l : List Char) (h : ' ' ∉ l) :
    beforeLastSpace l = none := by
  induction l with
  | nil => rfl
  | cons c cs ih =>
      have hcs : ' ' ∉ cs := fun hm => h (List.mem_cons_of_mem _ hm)
      have hc : ¬c = ' ' := fun hc => h (List.mem_cons.mpr (Or.inl hc.symm))
      simp only [beforeLastSpace, ih hcs, if_neg hc]

/-- C7 (amended): truncate_teaser returns the cleaned text unchanged when it is
within the 200-character bound; otherwise it returns a prefix of the cleaned
text with "..." appended, and that prefix ends at a word boundary (the cleaned
text's next character is a space) whenever the first 200 characters contain a
space.  The amendment: when the first 200 characters contain no space, the
raw 200-character prefix is returned, cutting mid-word (see the
counterexample). -/
theorem c7_truncate_teaser (unescape : String → String) (text : String) :
    ((clean_html unescape text).length ≤ 200 →
      truncate_teaser unescape text = clean_html unescape text) ∧
    (200 < (clean_html unescape text).length →
      ∃ p : List Char,
        truncate_teaser unescape text = String.mk (p ++ ['.', '.', '.']) ∧
        p <+: (clean_html unescape text).data ∧
        (' ' ∈ (clean_html unescape text).data.take 200 →
          (clean_html unescape text).data.get? p.length = some ' ') ∧
        (' ' ∉ (clean_html unescape text).data.take 200 →
          p = (clean_html unescape text).data.take 200)) := by
  constructor
  · intro h
    simp [truncate_teaser, h]
  · intro h
    have hn : ¬(clean_html unescape text).length ≤ 200 := by omega
    refine ⟨(beforeLastSpace ((clean_html unescape text).data.take 200)).getD
      ((clean_html unescape text).data.take 200), ?_, ?_, ?_, ?_⟩
    · simp [truncate_teaser, hn]
    · cases hb : beforeLastSpace ((clean_html unescape text).data.take 200) with
      | some r =>
          simp only [hb, Option.getD_some]
          exact (beforeLastSpace_spec _ r hb).1.trans
            (List.take_prefix 200 (clean_html unescape text).data)
      | none =>
          simp only [hb, Option.getD_none]
          exact List.take_prefix 200 (clean_html unescape text).data
    · intro hsp
      obtain ⟨r, hb⟩ := beforeLastSpace_of_mem _ hsp
      simp only [hb, Option.getD_some]
      obtain ⟨hpre, hget⟩ := beforeLastSpace_spec _ r hb
      have hlt : r.length < ((clean_html unescape text).data.take 200).length :=
        (List.get?_eq_some.mp hget).1
      have hlt200 : r.length < 200 :=
        lt_of_lt_of_le hlt (by simpa using List.length_take_le 200 _)
      rw [← List.get?_take hlt200]
      exact hget
    · intro hsp
      rw [beforeLastSpace_of_not_mem _ hsp]
      rfl

/-- Witness for C7 at a concrete input. -/
theorem c7_truncate_teaser_witness :
    (clean_html id "hello world").length ≤ 200 ∧
    truncate_teaser id "hello world" = clean_html id "hello world" :=
  ⟨by decide, (c7_truncate_teaser id "hello world").1 (by decide)⟩

/-- C7 counterexample to the claim as stated: on a cleaned text of 201 letters
with no space, truncate_teaser returns the first 200 characters plus "...",
cutting mid-word - the character after the cut is a letter, not a word
boundary. -/
theorem c7_midword_counterexample :
    truncate_teaser id (String.mk (List.replicate 201 'a')) =
      String.mk (List.replicate 200 'a' ++ ['.', '.', '.']) ∧
    (clean_html id (String.mk (List.replicate 201 'a'))).data.get? 200 = some 'a' := by
  constructor <;> decide

/-! ### Claim C8: the normalizer's headline/url gate -/

/-- C8: fetch_feed's per-entry normalization silently discards an entry (the
function is total: an unusable entry yields `none`, never an error) exactly
when the entry does not have both a non-empty cleaned headline and a non-empty
link; every other entry yields a candidate. -/
theorem c8_normalizer_gate (unescape : String → String) (name : String)
    (published : Option String) (e : RawEntry) :
    normalizeEntry unescape name published e = none ↔
      (clean_html unescape (e.title.getD "") = "" ∨ e.link.getD "" = "") := by
  simp only [normalizeEntry]
  by_cases h1 : clean_html unescape (e.title.getD "") = ""
  · simp [h1]
  · by_cases h2 : e.link.getD "" = ""
    · simp [h1, h2]
    · simp [h1, h2]

/-! ### Claim C9: mark_seen idempotence and url uniqueness -/

theorem mark_article_seen_nodup (db : List SeenRow) (u h c : String)
    (hnd : (db.map SeenRow.url).Nodup) :
    ((mark_article_seen db u h c).map SeenRow.url).Nodup := by
  by_cases hs : db.any (fun r => r.url = u)
  · simpa [mark_article_seen, hs] using hnd
  · have hu : u ∉ db.map SeenRow.url := by
      intro hmem
      rcases List.mem_map.mp hmem with ⟨r, hr, hru⟩
      exact absurd (List.any_eq_true.mpr ⟨r, hr, by simp [hru]⟩) hs
    simp only [mark_article_seen]
    rw [if_neg hs, List.map_append]
    exact List.nodup_append.mpr
      ⟨hnd, List.nodup_singleton u, fun a ha hb => by
        simp only [List.map_cons, List.map_nil, List.mem_singleton] at hb
        exact hu (hb ▸ ha)⟩

/-- C9: mark_seen is idempotent - re-marking an already-seen url (with any
headline and category) leaves the seen table unchanged, and consequently
every sequence of mark_seen calls starting from the empty table yields a
table with pairwise-distinct urls. -/
theorem c9_mark_seen :
    (∀ (db : List SeenRow) (u h c h' c' : String),
      mark_article_seen (mark_article_seen db u h c) u h' c' =
        mark_article_seen db u h c) ∧
    (∀ calls : List (String × String × String),
      (((calls.foldl (fun db t => mark_article_seen db t.1 t.2.1 t.2.2)
        ([] : List SeenRow)).map SeenRow.url)).Nodup) := by
  constructor
  · intro db u h c h' c'
    by_cases hs : db.any (fun r => r.url = u)
    · simp [mark_article_seen, hs]
    · have hs2 : (db ++ [({ url := u, headline := h, category := c } : SeenRow)]).any
          (fun r => r.url = u) = true := by
        simp [List.any_append]
      simp [mark_article_seen, hs, hs2]
  · have key : ∀ (calls : List (String × String × String)) (db : List SeenRow),
        (db.map SeenRow.url).Nodup →
        (((calls.foldl (fun db t => mark_article_seen db t.1 t.2.1 t.2.2)
          db).map SeenRow.url)).Nodup := by
      intro calls
      induction calls with
      | nil => intro db hnd; exact hnd
      | cons t ts ih =>
          intro db hnd
          exact ih _ (mark_article_seen_nodup db t.1 t.2.1 t.2.2 hnd)
    intro calls
    exact key calls [] (by simp)

/-! ### Claim C10: cleanup_old_articles -/

theorem filter_eq_of_length_eq {α : Type} (p : α → Bool) (l : List α)
    (h : (l.filter p).length = l.length) : l.filter p = l := by
  induction l with
  | nil => rfl
  | cons a as ih =>
      by_cases hp : p a
      · simp only [List.filter_cons, hp, if_true, List.length_cons] at h ⊢
        rw [ih (Nat.succ_injective h)]
      · have hfil : (a :: as).filter p = as.filter p := by
          simp [List.filter_cons, hp]
        rw [hfil, List.length_cons] at h
        have := List.length_filter_le p as
        omega

theorem cleanupStep_fst (cutoff : String) (d : List (String × List Article))
    (n : Nat) (k : String) :
    (cleanupStep cutoff (d, n) k).1 =
      match dictGet? d k with
      | none => d
      | some lst => dictSet d k (lst.filter (keepArticle cutoff)) := by
  cases hg : dictGet? d k <;> simp [cleanupStep, hg]

theorem cleanup_fold_lookup (cutoff : String) (cats : List String) (hnd : cats.Nodup) :
    ∀ (d : List (String × List Article)) (n : Nat) (c : String),
      dictGet? (cats.foldl (cleanupStep cutoff) (d, n)).1 c =
        if c ∈ cats then (dictGet? d c).map (List.filter (keepArticle cutoff))
        else dictGet? d c := by
  induction cats with
  | nil =>
      intro d n c
      simp
  | cons k ks ih =>
      intro d n c
      have hk : k ∉ ks := (List.nodup_cons.mp hnd).1
      have hnd' : ks.Nodup := (List.nodup_cons.mp hnd).2
      rw [List.foldl_cons]
      have hpair := ih hnd' (cleanupStep cutoff (d, n) k).1
        (cleanupStep cutoff (d, n) k).2 c
      rw [Prod.mk.eta] at hpair
      rw [hpair]
      by_cases hck : c = k
      · subst hck
        rw [if_neg hk, if_pos (List.mem_cons_self c ks)]
        rw [cleanupStep_fst]
        cases hg : dictGet? d c with
        | none => simp [hg]
        | some lst => simp [hg, dictGet?_dictSet_self]
      · have hacc : dictGet? (cleanupStep cutoff (d, n) k).1 c = dictGet? d c := by
          rw [cleanupStep_fst]
          cases hg : dictGet? d k with
          | none => simp
          | some lst =>
              simp only
              exact dictGet?_dictSet_ne d k c _ (fun he => hck he.symm)
        rw [hacc]
        by_cases hcs : c ∈ ks
        · rw [if_pos hcs, if_pos (List.mem_cons_of_mem _ hcs)]
        · rw [if_neg hcs, if_neg (by simp [hck, hcs])]

theorem cleanup_fold_snd_mono (cutoff : String) (cats : List String) :
    ∀ (d : List (String × List Article)) (n : Nat),
      n ≤ (cats.foldl (cleanupStep cutoff) (d, n)).2 := by
  induction cats with
  | nil => intro d n; exact le_refl n
  | cons k ks ih =>
      intro d n
      rw [List.foldl_cons]
      have hpair := ih (cleanupStep cutoff (d, n) k).1 (cleanupStep cutoff (d, n) k).2
      rw [Prod.mk.eta] at hpair
      refine le_trans ?_ hpair
      cases hg : dictGet? d k with
      | none => simp [cleanupStep, hg]
      | some lst => simp [cleanupStep, hg]

theorem cleanup_fold_fst_of_snd_eq (cutoff : String) (cats : List String) :
    ∀ (d : List (String × List Article)) (n : Nat),
      (cats.foldl (cleanupStep cutoff) (d, n)).2 = n →
      (cats.foldl (cleanupStep cutoff) (d, n)).1 = d := by
  induction cats with
  | nil => intro d n _; rfl
  | cons k ks ih =>
      intro d n h
      rw [List.foldl_cons] at h ⊢
      cases hg : dictGet? d k with
      | none =>
          have hstep : cleanupStep cutoff (d, n) k = (d, n) := by
            simp [cleanupStep, hg]
          rw [hstep] at h ⊢
          exact ih d n h
      | some lst =>
          have hstep : cleanupStep cutoff (d, n) k =
              (dictSet d k (lst.filter (keepArticle cutoff)),
               n + (lst.length - (lst.filter (keepArticle cutoff)).length)) := by
            simp [cleanupStep, hg]
          rw [hstep] at h ⊢
          have hmono := cleanup_fold_snd_mono cutoff ks
            (dictSet d k (lst.filter (keepArticle cutoff)))
            (n + (lst.length - (lst.filter (keepArticle cutoff)).length))
          have hle := List.length_filter_le (keepArticle cutoff) lst
          have hflen : (lst.filter (keepArticle cutoff)).length = lst.length := by
            omega
          have hfeq : lst.filter (keepArticle cutoff) = lst :=
            filter_eq_of_length_eq (keepArticle cutoff) lst hflen
          rw [hfeq, dictSet_self d k lst hg] at h ⊢
          simp only [Nat.sub_self, Nat.add_zero] at h ⊢
          exact ih d n h

/-- C10: cleanup_old_articles filters each configured category's live list down
to the articles kept by `not a.get('approvedDate') or approvedDate >= cutoff`
(so an article is removed exactly when it carries a non-empty approvedDate
strictly earlier than the 7-day cutoff, and articles without the field are
never removed); the editor's pick, the last-updated date, the archive and any
key outside the category list are untouched; the state is unchanged whenever
the removal count is zero; and the live file is rewritten exactly when the
removal count is positive. -/
theorem c10_cleanup_old_articles (cutoff : String) (st : StateV2) :
    (cleanup_old_articles cutoff st).1.live.editorsPick = st.live.editorsPick ∧
    (cleanup_old_articles cutoff st).1.live.lastUpdated = st.live.lastUpdated ∧
    (cleanup_old_articles cutoff st).1.archive = st.archive ∧
    (∀ c, dictGet? (cleanup_old_articles cutoff st).1.live.cats c =
      if c ∈ CATEGORIES_V2 then
        (dictGet? st.live.cats c).map (List.filter (keepArticle cutoff))
      else dictGet? st.live.cats c) ∧
    ((cleanup_old_articles cutoff st).2.2 = true ↔
      0 < (cleanup_old_articles cutoff st).2.1) ∧
    ((cleanup_old_articles cutoff st).2.1 = 0 →
      (cleanup_old_articles cutoff st).1 = st) ∧
    (∀ a : Article, keepArticle cutoff a = false ↔
      ∃ d, a.approvedDate = some d ∧ d ≠ "" ∧ d < cutoff) := by
  refine ⟨rfl, rfl, rfl, ?_, ?_, ?_, ?_⟩
  · intro c
    exact cleanup_fold_lookup cutoff CATEGORIES_V2 (by decide) st.live.cats 0 c
  · exact decide_eq_true_iff
  · intro h
    have hfst := cleanup_fold_fst_of_snd_eq cutoff CATEGORIES_V2 st.live.cats 0 h
    show ({ st with live := { st.live with
      cats := (CATEGORIES_V2.foldl (cleanupStep cutoff) (st.live.cats, 0)).1 } } : StateV2) = st
    rw [hfst]
  · intro a
    unfold keepArticle
    cases hd : a.approvedDate with
    | none => simp
    | some d =>
        by_cases he : d = ""
        · simp [he]
        · simp only [he, if_false]
          constructor
          · intro hlt
            exact ⟨d, rfl, he, not_le.mp (by simpa using hlt)⟩
          · intro ⟨d', hd', hne, hlt⟩
            obtain rfl : d = d' := Option.some.inj hd'
            simpa using not_le.mpr hlt

/-- Witness for C10 at a concrete input. -/
theorem c10_cleanup_old_articles_witness :
    (cleanup_old_articles "2026-02-01" emptyStateV2).1 = emptyStateV2 ∧
    (cleanup_old_articles "2026-02-01" emptyStateV2).1.archive = emptyStateV2.archive :=
  ⟨(c10_cleanup_old_articles "2026-02-01" emptyStateV2).2.2.2.2.2.1 (by decide),
   (c10_cleanup_old_articles "2026-02-01" emptyStateV2).2.2.1⟩
